import Mathlib

/-!
# Verification of the Monolith remote tool-invocation client

Shallow embedding of the protocol core of the Monolith repository:

* `RealFiMcpService` (WebSocket client with a pending-request table,
  per-request 30 s timers, reconnect scheduling and teardown);
* `FiMcpClient` (MCP SDK client: passcode verification by payload shape,
  aggregated fetch of all data categories, local authentication state);
* `FiMcpService` (backend stream service: reconnect policy with a
  `reconnectAttempts` counter, and the ping/pong liveness interval).

Stateful code is embedded as explicit step functions over state records;
event sequences (inbound messages, timer firings, close events, explicit
teardown calls) are lists folded over the step function.
-/

namespace Monolith

/-! ## Decimal rendering of request counters

`RealFiMcpService.sendRequest` forms the wire id of a request as the
template string `req_` followed by the decimal rendering of the
pre-incremented counter `++this.messageId`.  We embed the decimal
rendering with a fuel-indexed structural recursion so that concrete
instances evaluate inside the kernel. -/

/-- Little-endian decimal digits of `n`, with explicit fuel (`n` itself is
always enough fuel).  `decDigitsAux fuel 0 = []`. -/
def decDigitsAux : Nat → Nat → List Nat
  | 0, _ => []
  | _ + 1, 0 => []
  | fuel + 1, n + 1 => ((n + 1) % 10) :: decDigitsAux fuel ((n + 1) / 10)

/-- Little-endian decimal digits of `n`. -/
def decDigits (n : Nat) : List Nat :=
  decDigitsAux n n

/-- Recombine little-endian decimal digits into a number. -/
def undigits (l : List Nat) : Nat :=
  l.foldr (fun d r => d + 10 * r) 0

theorem undigits_decDigitsAux : ∀ fuel n, n ≤ fuel → undigits (decDigitsAux fuel n) = n := by
  intro fuel
  induction fuel with
  | zero =>
    intro n hn
    interval_cases n
    rfl
  | succ fuel ih =>
    intro n hn
    match n with
    | 0 => rfl
    | m + 1 =>
      have hdiv : (m + 1) / 10 ≤ fuel := by
        have h1 : (m + 1) / 10 < m + 1 := Nat.div_lt_self (Nat.succ_pos m) (by omega)
        omega
      simp only [decDigitsAux, undigits, List.foldr_cons]
      have := ih ((m + 1) / 10) hdiv
      simp only [undigits] at this
      rw [this]
      omega

theorem undigits_decDigits (n : Nat) : undigits (decDigits n) = n :=
  undigits_decDigitsAux n n (Nat.le_refl n)

theorem decDigits_injective : Function.Injective decDigits := by
  intro m n h
  have hm := undigits_decDigits m
  have hn := undigits_decDigits n
  rw [← hm, ← hn, h]

theorem decDigitsAux_lt_ten : ∀ fuel n d, d ∈ decDigitsAux fuel n → d < 10 := by
  intro fuel
  induction fuel with
  | zero =>
    intro n d hd
    simp [decDigitsAux] at hd
  | succ fuel ih =>
    intro n d hd
    match n with
    | 0 => simp [decDigitsAux] at hd
    | m + 1 =>
      simp only [decDigitsAux, List.mem_cons] at hd
      rcases hd with h | h
      · subst h
        exact Nat.mod_lt _ (by omega)
      · exact ih _ _ h

theorem decDigits_lt_ten {n d : Nat} (hd : d ∈ decDigits n) : d < 10 :=
  decDigitsAux_lt_ten n n d hd

/-- The character printed for a single decimal digit. -/
def digitCh : Nat → Char
  | 0 => '0'
  | 1 => '1'
  | 2 => '2'
  | 3 => '3'
  | 4 => '4'
  | 5 => '5'
  | 6 => '6'
  | 7 => '7'
  | 8 => '8'
  | 9 => '9'
  | _ => '?'

theorem digitCh_inj {a b : Nat} (ha : a < 10) (hb : b < 10) (h : digitCh a = digitCh b) :
    a = b := by
  interval_cases a <;> interval_cases b <;> first | rfl | exact absurd h (by decide)

theorem map_digitCh_inj : ∀ l₁ l₂ : List Nat, (∀ x ∈ l₁, x < 10) → (∀ x ∈ l₂, x < 10) →
    l₁.map digitCh = l₂.map digitCh → l₁ = l₂ := by
  intro l₁
  induction l₁ with
  | nil =>
    intro l₂ _ _ h
    cases l₂ with
    | nil => rfl
    | cons b t => simp at h
  | cons a t ih =>
    intro l₂ h₁ h₂ h
    cases l₂ with
    | nil => simp at h
    | cons b t' =>
      simp only [List.map_cons, List.cons.injEq] at h
      have hab : a = b :=
        digitCh_inj (h₁ a (List.mem_cons_self a t)) (h₂ b (List.mem_cons_self b t')) h.1
      have ht : t = t' := by
        refine ih t' (fun x hx => h₁ x (List.mem_cons_of_mem a hx))
          (fun x hx => h₂ x (List.mem_cons_of_mem b hx)) h.2
      rw [hab, ht]

/-- The wire identifier of the request whose pre-incremented counter value
is `n`: the source writes the template string `req_` followed by the
decimal rendering of `n` (big-endian), as in `req_1`, `req_2`, … -/
def mkReqId (n : Nat) : String :=
  String.mk ('r' :: 'e' :: 'q' :: '_' :: ((decDigits n).reverse.map digitCh))

theorem mkReqId_injective : Function.Injective mkReqId := by
  intro m n h
  have hdata := congrArg String.data h
  simp only [mkReqId, List.cons.injEq, true_and] at hdata
  have hrev : (decDigits m).reverse = (decDigits n).reverse := by
    refine map_digitCh_inj _ _ ?_ ?_ hdata
    · intro x hx
      exact decDigits_lt_ten (List.mem_reverse.mp hx)
    · intro x hx
      exact decDigits_lt_ten (List.mem_reverse.mp hx)
  exact decDigits_injective (List.reverse_injective hrev)

/-! ## `RealFiMcpService` (src/unnamed/part_002)

State: `ws` (null or created), `isConnected`, `authToken`, `messageId`
counter, and the `pendingRequests` map.  We record the map as the list of
its keys (insertion order) and keep a log `settled` of every continuation
firing `(id, outcome)`, in order, so that "exactly one of resolve/reject
fires" is the statement that the log holds at most/exactly one entry for
the id. -/

/-- Errors with which a continuation of `RealFiMcpService` can be
rejected.  `sendRequest` rejects on timer expiry with the message
`Request timeout`; the message handler rejects with
`message.error.message || 'MCP Error'` when the response payload carries
an error.  (No other rejection of a pending continuation exists in the
source; in particular no `ConnectionLost` rejection.) -/
inductive McpErr where
  /-- `new Error('Request timeout')` from the per-request 30 s timer. -/
  | requestTimeout : McpErr
  /-- `new Error(message.error.message || 'MCP Error')` from a response
  whose payload carries a truthy `error` field. -/
  | mcpError (message : String) : McpErr
deriving DecidableEq

/-- A single firing of a pending-request continuation. -/
inductive Settlement (α : Type) where
  /-- `pending.resolve(message.result)`. -/
  | resolved (result : α) : Settlement α
  /-- `pending.reject(err)`. -/
  | rejected (err : McpErr) : Settlement α
deriving DecidableEq

/-- State of one `RealFiMcpService` instance.  `pending` lists the keys of
the `pendingRequests` map in insertion order; `settled` is the log of
continuation firings (not a field of the source object — it records the
observable resolve/reject calls). -/
structure SvcState (α : Type) where
  /-- `this.ws !== null`. -/
  wsExists : Bool
  /-- `this.isConnected`. -/
  isConnected : Bool
  /-- `this.authToken`. -/
  authToken : Option String
  /-- `this.messageId` (last used counter value). -/
  messageId : Nat
  /-- Keys of `this.pendingRequests`, in insertion order. -/
  pending : List String
  /-- Log of continuation firings `(id, outcome)` in order. -/
  settled : List (String × Settlement α)
deriving DecidableEq

/-- The fresh service object: `ws = null`, `isConnected = false`,
`authToken = null`, `messageId = 0`, empty pending map. -/
def SvcState.init (α : Type) : SvcState α :=
  { wsExists := false, isConnected := false, authToken := none
    messageId := 0, pending := [], settled := [] }

/-- Events acting on a `RealFiMcpService` instance.  Inbound messages are
represented after JSON parsing and `type` dispatch; `recvMalformed`
stands for data on which `JSON.parse` throws (caught and logged). -/
inductive Ev (α : Type) where
  /-- `sendRequest(method, params)` is invoked by a caller.  (When not
  connected it throws `Not connected to Fi MCP Server` synchronously and
  registers nothing.) -/
  | issue : Ev α
  /-- A parsed message of `type: 'response'` arrives.  `error = some m`
  means the payload carries a truthy `error` field, with `m = some text`
  when `error.message` is truthy (`getD` of `none` is the
  `'MCP Error'` fallback). -/
  | recvResponse (id : String) (error : Option (Option String)) (result : α) : Ev α
  /-- A parsed message of `type: 'notification'` arrives
  (`handleNotification` only logs). -/
  | recvNotification : Ev α
  /-- Inbound data on which `JSON.parse` throws (caught, logged). -/
  | recvMalformed : Ev α
  /-- A parsed message whose `type` is neither `response` nor
  `notification` (both dispatch branches skipped). -/
  | recvOther : Ev α
  /-- The 30 s `setTimeout` callback registered for wire id `id` runs. -/
  | timerFire (id : String) : Ev α
  /-- `this.ws = new WebSocket(...)` inside the connection routine. -/
  | initCall : Ev α
  /-- The transport `open` event fires (`isConnected = true`, message
  handlers installed). -/
  | wsOpen : Ev α
  /-- The transport `close` event fires: the handler sets
  `isConnected = false` and calls `scheduleReconnect()`; it does not
  touch `pendingRequests`. -/
  | wsClose : Ev α
  /-- `disconnect()` is invoked: `ws.close(); ws = null;
  isConnected = false; authToken = null; pendingRequests.clear()` —
  the clear does not fire any continuation. -/
  | disconnectCall : Ev α
deriving DecidableEq

/-- Outcome a response message settles its continuation with:
`if (message.error) reject(new Error(message.error.message || 'MCP Error'))
else resolve(message.result)`. -/
def settleOf {α : Type} (error : Option (Option String)) (result : α) : Settlement α :=
  match error with
  | some m => .rejected (.mcpError (m.getD "MCP Error"))
  | none => .resolved result

/-- One step of the `RealFiMcpService` event semantics, translated
handler by handler from the source. -/
def step {α : Type} (s : SvcState α) (e : Ev α) : SvcState α :=
  match e with
  | .issue =>
      -- sendRequest: `if (!this.isConnected || !this.ws) throw ...` then
      -- `const messageId = req_${++this.messageId}` and
      -- `this.pendingRequests.set(messageId, {resolve, reject})`.
      if s.isConnected && s.wsExists then
        { s with messageId := s.messageId + 1
                 pending := s.pending ++ [mkReqId (s.messageId + 1)] }
      else s
  | .recvResponse id error result =>
      -- `const pending = this.pendingRequests.get(message.id); if (pending)
      -- { reject-or-resolve; this.pendingRequests.delete(message.id) }`.
      if id ∈ s.pending then
        { s with pending := s.pending.erase id
                 settled := s.settled ++ [(id, settleOf error result)] }
      else s
  | .recvNotification => s
  | .recvMalformed => s
  | .recvOther => s
  | .timerFire id =>
      -- `if (this.pendingRequests.has(messageId)) {
      --    this.pendingRequests.delete(messageId);
      --    reject(new Error('Request timeout')); }`.
      if id ∈ s.pending then
        { s with pending := s.pending.erase id
                 settled := s.settled ++ [(id, .rejected .requestTimeout)] }
      else s
  | .initCall => { s with wsExists := true }
  | .wsOpen => { s with isConnected := true }
  | .wsClose => { s with isConnected := false }
  | .disconnectCall =>
      { s with wsExists := false, isConnected := false, authToken := none, pending := [] }

/-- Fold a list of events over `step`. -/
def run {α : Type} (s : SvcState α) (tr : List (Ev α)) : SvcState α :=
  tr.foldl step s

/-- The per-request timeout constant: `setTimeout(..., 30000)`. -/
def requestTimeoutMs : Nat := 30000

/-- The delay of `scheduleReconnect` in `RealFiMcpService`:
`setTimeout(..., 5000)`. -/
def svcReconnectDelayMs : Nat := 5000

/-- Number of continuation firings recorded for wire id `id`. -/
def keyCount {α : Type} (s : SvcState α) (id : String) : Nat :=
  (s.settled.map Prod.fst).count id

theorem step_issue_pos {α : Type} {s : SvcState α} (h : (s.isConnected && s.wsExists) = true) :
    step s Ev.issue
      = { s with messageId := s.messageId + 1
                 pending := s.pending ++ [mkReqId (s.messageId + 1)] } := by
  simp [step, h]

theorem step_timerFire_pos {α : Type} {s : SvcState α} {id : String} (h : id ∈ s.pending) :
    step s (Ev.timerFire id)
      = { s with pending := s.pending.erase id
                 settled := s.settled ++ [(id, Settlement.rejected McpErr.requestTimeout)] } := by
  simp [step, h]

theorem step_timerFire_neg {α : Type} {s : SvcState α} {id : String} (h : id ∉ s.pending) :
    step s (Ev.timerFire id) = s := by
  simp [step, h]

theorem step_recvResponse_pos {α : Type} {s : SvcState α} {id : String}
    (error : Option (Option String)) (r : α) (h : id ∈ s.pending) :
    step s (Ev.recvResponse id error r)
      = { s with pending := s.pending.erase id
                 settled := s.settled ++ [(id, settleOf error r)] } := by
  simp [step, h]

theorem step_recvResponse_neg {α : Type} {s : SvcState α} {id : String}
    (error : Option (Option String)) (r : α) (h : id ∉ s.pending) :
    step s (Ev.recvResponse id error r) = s := by
  simp [step, h]

theorem run_nil {α : Type} (s : SvcState α) : run s [] = s := rfl

theorem run_cons {α : Type} (s : SvcState α) (e : Ev α) (tr : List (Ev α)) :
    run s (e :: tr) = run (step s e) tr := rfl

theorem run_append {α : Type} (s : SvcState α) (tr₁ tr₂ : List (Ev α)) :
    run s (tr₁ ++ tr₂) = run (run s tr₁) tr₂ :=
  List.foldl_append ..

/-! ### Structural invariants of the pending table and settlement log -/

/-- Number of firings recorded for `id` in a settlement log. -/
def keysCount {α : Type} (l : List (String × Settlement α)) (id : String) : Nat :=
  (l.map Prod.fst).count id

theorem keyCount_eq {α : Type} (s : SvcState α) (id : String) :
    keyCount s id = keysCount s.settled id := rfl

theorem keysCount_append {α : Type} (l₁ l₂ : List (String × Settlement α)) (id : String) :
    keysCount (l₁ ++ l₂) id = keysCount l₁ id + keysCount l₂ id := by
  simp [keysCount, List.count_append]

theorem keysCount_single {α : Type} (a : String) (v : Settlement α) (id : String) :
    keysCount [(a, v)] id = if id = a then 1 else 0 := by
  by_cases h : id = a
  · subst h
    simp [keysCount]
  · simp [keysCount, List.count_cons, h, Ne.symm h]

theorem keysCount_pos_iff {α : Type} (l : List (String × Settlement α)) (id : String) :
    0 < keysCount l id ↔ ∃ p ∈ l, p.1 = id := by
  simp only [keysCount, List.count_pos_iff, List.mem_map]

/-- Reachability invariant of the `RealFiMcpService` machine: every key
ever used comes from a positive counter value bounded by `messageId`,
the pending keys are distinct, a pending key has not fired yet, and no
key ever fires twice. -/
structure SvcInv {α : Type} (s : SvcState α) : Prop where
  pending_bound : ∀ id ∈ s.pending, ∃ k, 0 < k ∧ k ≤ s.messageId ∧ id = mkReqId k
  settled_bound : ∀ p ∈ s.settled, ∃ k, 0 < k ∧ k ≤ s.messageId ∧ p.1 = mkReqId k
  pending_nodup : s.pending.Nodup
  pending_unsettled : ∀ id ∈ s.pending, keysCount s.settled id = 0
  settled_once : ∀ id, keysCount s.settled id ≤ 1

theorem svcInv_init (α : Type) : SvcInv (SvcState.init α) := by
  constructor <;> simp [SvcState.init, keysCount]

/-- The fresh key `mkReqId (messageId + 1)` has never been used: it is
not pending and has never fired. -/
theorem svcInv_fresh {α : Type} {s : SvcState α} (h : SvcInv s) :
    mkReqId (s.messageId + 1) ∉ s.pending ∧ keysCount s.settled (mkReqId (s.messageId + 1)) = 0 := by
  constructor
  · intro hmem
    obtain ⟨k, hk0, hkle, hkeq⟩ := h.pending_bound _ hmem
    have := mkReqId_injective hkeq.symm
    omega
  · by_contra hne
    have hpos : 0 < keysCount s.settled (mkReqId (s.messageId + 1)) := Nat.pos_of_ne_zero hne
    obtain ⟨p, hp, hpeq⟩ := (keysCount_pos_iff _ _).mp hpos
    obtain ⟨k, hk0, hkle, hkeq⟩ := h.settled_bound _ hp
    have := mkReqId_injective (hkeq.symm.trans hpeq).symm
    omega

/-- Invariant preservation for the shared "settle and remove" shape used
by both the response handler and the timeout callback. -/
theorem svcInv_settle {α : Type} {s : SvcState α} (h : SvcInv s) {id : String}
    (hmem : id ∈ s.pending) (v : Settlement α) :
    SvcInv { s with pending := s.pending.erase id, settled := s.settled ++ [(id, v)] } := by
  have hid_not : id ∉ s.pending.erase id := h.pending_nodup.not_mem_erase
  constructor
  · intro j hj
    exact h.pending_bound j (s.pending.mem_of_mem_erase hj)
  · intro p hp
    rcases List.mem_append.mp hp with hp | hp
    · exact h.settled_bound p hp
    · simp only [List.mem_singleton] at hp
      subst hp
      exact h.pending_bound id hmem
  · exact h.pending_nodup.erase id
  · intro j hj
    have hj_mem : j ∈ s.pending := s.pending.mem_of_mem_erase hj
    have hj_ne : j ≠ id := fun hje => hid_not (hje ▸ hj)
    rw [keysCount_append, keysCount_single, h.pending_unsettled j hj_mem, if_neg hj_ne]
  · intro j
    rw [keysCount_append, keysCount_single]
    by_cases hj : j = id
    · rw [if_pos hj, hj, h.pending_unsettled id hmem]
    · rw [if_neg hj]
      have := h.settled_once j
      omega

theorem svcInv_step {α : Type} {s : SvcState α} (h : SvcInv s) (e : Ev α) :
    SvcInv (step s e) := by
  cases e with
  | issue =>
    by_cases hc : s.isConnected && s.wsExists
    · simp only [step, if_pos hc]
      obtain ⟨hfresh_p, hfresh_s⟩ := svcInv_fresh h
      constructor
      · intro j hj
        rcases List.mem_append.mp hj with hj | hj
        · obtain ⟨k, hk0, hkle, hkeq⟩ := h.pending_bound j hj
          exact ⟨k, hk0, Nat.le_succ_of_le hkle, hkeq⟩
        · simp only [List.mem_singleton] at hj
          exact ⟨s.messageId + 1, Nat.succ_pos _, Nat.le_refl _, hj⟩
      · intro p hp
        obtain ⟨k, hk0, hkle, hkeq⟩ := h.settled_bound p hp
        exact ⟨k, hk0, Nat.le_succ_of_le hkle, hkeq⟩
      · refine List.Nodup.append h.pending_nodup (List.nodup_singleton _) ?_
        intro j hj hj'
        simp only [List.mem_singleton] at hj'
        exact hfresh_p (hj' ▸ hj)
      · intro j hj
        rcases List.mem_append.mp hj with hj | hj
        · exact h.pending_unsettled j hj
        · simp only [List.mem_singleton] at hj
          exact hj ▸ hfresh_s
      · exact h.settled_once
    · simp only [step, if_neg hc]
      exact h
  | recvResponse id error result =>
    by_cases hmem : id ∈ s.pending
    · simp only [step, if_pos hmem]
      exact svcInv_settle h hmem _
    · simp only [step, if_neg hmem]
      exact h
  | timerFire id =>
    by_cases hmem : id ∈ s.pending
    · simp only [step, if_pos hmem]
      exact svcInv_settle h hmem _
    · simp only [step, if_neg hmem]
      exact h
  | recvNotification => exact h
  | recvMalformed => exact h
  | recvOther => exact h
  | initCall =>
    exact { pending_bound := h.pending_bound, settled_bound := h.settled_bound
            pending_nodup := h.pending_nodup, pending_unsettled := h.pending_unsettled
            settled_once := h.settled_once }
  | wsOpen =>
    exact { pending_bound := h.pending_bound, settled_bound := h.settled_bound
            pending_nodup := h.pending_nodup, pending_unsettled := h.pending_unsettled
            settled_once := h.settled_once }
  | wsClose =>
    exact { pending_bound := h.pending_bound, settled_bound := h.settled_bound
            pending_nodup := h.pending_nodup, pending_unsettled := h.pending_unsettled
            settled_once := h.settled_once }
  | disconnectCall =>
    exact { pending_bound := by simp [step], settled_bound := h.settled_bound
            pending_nodup := by simp [step], pending_unsettled := by simp [step]
            settled_once := h.settled_once }

theorem svcInv_run {α : Type} {s : SvcState α} (h : SvcInv s) (tr : List (Ev α)) :
    SvcInv (run s tr) := by
  induction tr generalizing s with
  | nil => exact h
  | cons e tr ih => exact ih (svcInv_step h e)

theorem svcInv_reachable {α : Type} (tr : List (Ev α)) :
    SvcInv (run (SvcState.init α) tr) :=
  svcInv_run (svcInv_init α) tr

theorem messageId_mono_step {α : Type} (s : SvcState α) (e : Ev α) :
    s.messageId ≤ (step s e).messageId := by
  cases e with
  | issue =>
    by_cases hc : s.isConnected && s.wsExists
    · simp only [step, if_pos hc]
      exact Nat.le_succ _
    · simp only [step, if_neg hc]
      exact Nat.le_refl _
  | recvResponse id error result =>
    by_cases hmem : id ∈ s.pending
    · simp only [step, if_pos hmem]
      exact Nat.le_refl _
    · simp only [step, if_neg hmem]
      exact Nat.le_refl _
  | timerFire id =>
    by_cases hmem : id ∈ s.pending
    · simp only [step, if_pos hmem]
      exact Nat.le_refl _
    · simp only [step, if_neg hmem]
      exact Nat.le_refl _
  | recvNotification => exact Nat.le_refl _
  | recvMalformed => exact Nat.le_refl _
  | recvOther => exact Nat.le_refl _
  | initCall => exact Nat.le_refl _
  | wsOpen => exact Nat.le_refl _
  | wsClose => exact Nat.le_refl _
  | disconnectCall => exact Nat.le_refl _

theorem messageId_mono_run {α : Type} (s : SvcState α) (tr : List (Ev α)) :
    s.messageId ≤ (run s tr).messageId := by
  induction tr generalizing s with
  | nil => exact Nat.le_refl _
  | cons e tr ih => exact Nat.le_trans (messageId_mono_step s e) (ih (step s e))

/-! ### Trace lemmas -/

/-- Whether an event is addressed at wire id `id` through one of the two
settlement paths (a response carrying `id`, or the timer for `id`). -/
def evSettlesId {α : Type} (id : String) : Ev α → Bool
  | .recvResponse j _ _ => j == id
  | .timerFire j => j == id
  | _ => false

theorem keysCount_mono_step {α : Type} (s : SvcState α) (e : Ev α) (id : String) :
    keysCount s.settled id ≤ keysCount (step s e).settled id := by
  cases e with
  | issue =>
    by_cases hc : s.isConnected && s.wsExists
    · simp only [step, if_pos hc]
      exact Nat.le_refl _
    · simp only [step, if_neg hc]
      exact Nat.le_refl _
  | recvResponse j error result =>
    by_cases hmem : j ∈ s.pending
    · simp only [step, if_pos hmem]
      rw [keysCount_append]
      exact Nat.le_add_right _ _
    · simp only [step, if_neg hmem]
      exact Nat.le_refl _
  | timerFire j =>
    by_cases hmem : j ∈ s.pending
    · simp only [step, if_pos hmem]
      rw [keysCount_append]
      exact Nat.le_add_right _ _
    · simp only [step, if_neg hmem]
      exact Nat.le_refl _
  | recvNotification => exact Nat.le_refl _
  | recvMalformed => exact Nat.le_refl _
  | recvOther => exact Nat.le_refl _
  | initCall => exact Nat.le_refl _
  | wsOpen => exact Nat.le_refl _
  | wsClose => exact Nat.le_refl _
  | disconnectCall => exact Nat.le_refl _

theorem keysCount_mono_run {α : Type} (s : SvcState α) (tr : List (Ev α)) (id : String) :
    keysCount s.settled id ≤ keysCount (run s tr).settled id := by
  induction tr generalizing s with
  | nil => exact Nat.le_refl _
  | cons e tr ih => exact Nat.le_trans (keysCount_mono_step s e id) (ih (step s e))

/-- A key built from a counter value the machine has already passed, and
currently absent from the pending table, can never re-enter the table:
every later insertion uses a strictly larger counter value. -/
theorem not_pending_run {α : Type} {s : SvcState α} (h : SvcInv s) {k : Nat}
    (hk : k ≤ s.messageId) (hnp : mkReqId k ∉ s.pending) (tr : List (Ev α)) :
    mkReqId k ∉ (run s tr).pending := by
  induction tr generalizing s with
  | nil => exact hnp
  | cons e tr ih =>
    rw [run_cons]
    refine ih (svcInv_step h e) (Nat.le_trans hk (messageId_mono_step s e)) ?_
    cases e with
    | issue =>
      by_cases hc : s.isConnected && s.wsExists
      · simp only [step, if_pos hc]
        intro hmem
        rcases List.mem_append.mp hmem with hmem | hmem
        · exact hnp hmem
        · simp only [List.mem_singleton] at hmem
          have := mkReqId_injective hmem
          omega
      · simp only [step, if_neg hc]
        exact hnp
    | recvResponse j error result =>
      by_cases hmem : j ∈ s.pending
      · simp only [step, if_pos hmem]
        intro hin
        exact hnp (s.pending.mem_of_mem_erase hin)
      · simp only [step, if_neg hmem]
        exact hnp
    | timerFire j =>
      by_cases hmem : j ∈ s.pending
      · simp only [step, if_pos hmem]
        intro hin
        exact hnp (s.pending.mem_of_mem_erase hin)
      · simp only [step, if_neg hmem]
        exact hnp
    | recvNotification => exact hnp
    | recvMalformed => exact hnp
    | recvOther => exact hnp
    | initCall => exact hnp
    | wsOpen => exact hnp
    | wsClose => exact hnp
    | disconnectCall => simp [step]

/-- A pending key stays pending across any events that are not addressed
at it and are not `disconnect()`. -/
theorem pending_preserved_run {α : Type} {s : SvcState α} {id : String}
    (hmem : id ∈ s.pending) (tr : List (Ev α))
    (hq : ∀ e ∈ tr, evSettlesId id e = false) (hnd : Ev.disconnectCall ∉ tr) :
    id ∈ (run s tr).pending := by
  induction tr generalizing s with
  | nil => exact hmem
  | cons e tr ih =>
    rw [run_cons]
    have hq_tail : ∀ e ∈ tr, evSettlesId id e = false :=
      fun e he => hq e (List.mem_cons_of_mem _ he)
    have hnd_tail : Ev.disconnectCall ∉ tr := fun hmm => hnd (List.mem_cons_of_mem _ hmm)
    have hq_head := hq e (List.mem_cons_self e tr)
    refine ih ?_ hq_tail hnd_tail
    cases e with
    | issue =>
      by_cases hc : s.isConnected && s.wsExists
      · simp only [step, if_pos hc]
        exact List.mem_append.mpr (Or.inl hmem)
      · simp only [step, if_neg hc]
        exact hmem
    | recvResponse j error result =>
      simp only [evSettlesId, beq_eq_false_iff_ne, ne_eq] at hq_head
      by_cases hj : j ∈ s.pending
      · simp only [step, if_pos hj]
        exact (List.mem_erase_of_ne (fun hh => hq_head hh.symm)).mpr hmem
      · simp only [step, if_neg hj]
        exact hmem
    | timerFire j =>
      simp only [evSettlesId, beq_eq_false_iff_ne, ne_eq] at hq_head
      by_cases hj : j ∈ s.pending
      · simp only [step, if_pos hj]
        exact (List.mem_erase_of_ne (fun hh => hq_head hh.symm)).mpr hmem
      · simp only [step, if_neg hj]
        exact hmem
    | recvNotification => exact hmem
    | recvMalformed => exact hmem
    | recvOther => exact hmem
    | initCall => exact hmem
    | wsOpen => exact hmem
    | wsClose => exact hmem
    | disconnectCall => exact absurd (List.mem_cons_self _ _) hnd

/-- The settlement count of a key is unchanged across events that are not
addressed at it. -/
theorem keysCount_frozen_run {α : Type} (s : SvcState α) (id : String) (tr : List (Ev α))
    (hq : ∀ e ∈ tr, evSettlesId id e = false) :
    keysCount (run s tr).settled id = keysCount s.settled id := by
  induction tr generalizing s with
  | nil => rfl
  | cons e tr ih =>
    rw [run_cons]
    have hq_tail : ∀ e ∈ tr, evSettlesId id e = false :=
      fun e he => hq e (List.mem_cons_of_mem _ he)
    have hq_head := hq e (List.mem_cons_self e tr)
    rw [ih (step s e) hq_tail]
    cases e with
    | issue =>
      by_cases hc : s.isConnected && s.wsExists
      · simp only [step, if_pos hc]
      · simp only [step, if_neg hc]
    | recvResponse j error result =>
      simp only [evSettlesId, beq_eq_false_iff_ne, ne_eq] at hq_head
      by_cases hj : j ∈ s.pending
      · simp only [step, if_pos hj]
        rw [keysCount_append, keysCount_single, if_neg (fun hh => hq_head hh.symm)]
        omega
      · simp only [step, if_neg hj]
    | timerFire j =>
      simp only [evSettlesId, beq_eq_false_iff_ne, ne_eq] at hq_head
      by_cases hj : j ∈ s.pending
      · simp only [step, if_pos hj]
        rw [keysCount_append, keysCount_single, if_neg (fun hh => hq_head hh.symm)]
        omega
      · simp only [step, if_neg hj]
    | recvNotification => rfl
    | recvMalformed => rfl
    | recvOther => rfl
    | initCall => rfl
    | wsOpen => rfl
    | wsClose => rfl
    | disconnectCall => rfl

/-- Without a `disconnect()` in the trace, a pending key can only leave
the table by firing its continuation. -/
theorem pending_or_settled_run {α : Type} {s : SvcState α} {id : String}
    (hmem : id ∈ s.pending) (tr : List (Ev α)) (hnd : Ev.disconnectCall ∉ tr) :
    id ∈ (run s tr).pending ∨ 1 ≤ keysCount (run s tr).settled id := by
  induction tr generalizing s with
  | nil => exact Or.inl hmem
  | cons e tr ih =>
    rw [run_cons]
    have hnd_tail : Ev.disconnectCall ∉ tr := fun hmm => hnd (List.mem_cons_of_mem _ hmm)
    cases e with
    | issue =>
      by_cases hc : s.isConnected && s.wsExists
      · simp only [step, if_pos hc]
        exact ih (List.mem_append.mpr (Or.inl hmem)) hnd_tail
      · simp only [step, if_neg hc]
        exact ih hmem hnd_tail
    | recvResponse j error result =>
      by_cases hj : j ∈ s.pending
      · by_cases hij : id = j
        · refine Or.inr ?_
          subst hij
          refine Nat.le_trans ?_ (keysCount_mono_run _ tr id)
          simp only [step, if_pos hj]
          rw [keysCount_append, keysCount_single, if_pos rfl]
          omega
        · simp only [step, if_pos hj]
          exact ih ((List.mem_erase_of_ne hij).mpr hmem) hnd_tail
      · simp only [step, if_neg hj]
        exact ih hmem hnd_tail
    | timerFire j =>
      by_cases hj : j ∈ s.pending
      · by_cases hij : id = j
        · refine Or.inr ?_
          subst hij
          refine Nat.le_trans ?_ (keysCount_mono_run _ tr id)
          simp only [step, if_pos hj]
          rw [keysCount_append, keysCount_single, if_pos rfl]
          omega
        · simp only [step, if_pos hj]
          exact ih ((List.mem_erase_of_ne hij).mpr hmem) hnd_tail
      · simp only [step, if_neg hj]
        exact ih hmem hnd_tail
    | recvNotification => exact ih hmem hnd_tail
    | recvMalformed => exact ih hmem hnd_tail
    | recvOther => exact ih hmem hnd_tail
    | initCall => exact ih hmem hnd_tail
    | wsOpen => exact ih hmem hnd_tail
    | wsClose => exact ih hmem hnd_tail
    | disconnectCall => exact absurd (List.mem_cons_self _ _) hnd

/-! ### Claims C1–C4 and C9 (pending-request table of `RealFiMcpService`) -/

/-- C1, counterexample.  The claim says that for every entry placed in the
pending table exactly one of resolve / reject / timeout-reject eventually
fires, under every sequence of operations including `disconnect()`.  In
the code, `disconnect()` runs `pendingRequests.clear()` without firing any
continuation, and the 30 s timer then finds the key absent and does
nothing: after issuing a request, disconnecting, and letting the deadline
pass, the settlement log is empty — the caller is never settled. -/
theorem c1_counterexample :
    (run (SvcState.init Nat)
        [Ev.initCall, Ev.wsOpen, Ev.issue, Ev.disconnectCall, Ev.timerFire (mkReqId 1)]).settled
      = []
    ∧ (run (SvcState.init Nat)
        [Ev.initCall, Ev.wsOpen, Ev.issue, Ev.disconnectCall, Ev.timerFire (mkReqId 1)]).pending
      = [] := by
  exact ⟨rfl, rfl⟩

/-- C1, amended.  For every entry placed in the pending table: (a) at most
one of resolve / reject / timeout-reject ever fires, under every sequence
of subsequent operations including `disconnect()`; (b) once the deadline
timer for the entry has run, the table no longer retains the entry, ever;
(c) if no `disconnect()` occurs after the issue, then by the time the
deadline timer has run exactly one of resolve / reject / timeout-reject
has fired.  (Without the no-`disconnect()` proviso, part (c) fails: see
the counterexample.) -/
theorem c1_amended_exactly_one_settlement {α : Type} (tr₁ tr₂ : List (Ev α))
    (id : String) (F : SvcState α)
    (hconn : (run (SvcState.init α) tr₁).isConnected = true)
    (hws : (run (SvcState.init α) tr₁).wsExists = true)
    (hid : id = mkReqId ((run (SvcState.init α) tr₁).messageId + 1))
    (hF : F = run (SvcState.init α) (tr₁ ++ Ev.issue :: tr₂)) :
    keyCount F id ≤ 1 ∧
    (Ev.timerFire id ∈ tr₂ → id ∉ F.pending) ∧
    (Ev.timerFire id ∈ tr₂ → Ev.disconnectCall ∉ tr₂ → keyCount F id = 1) := by
  subst hid hF
  set s₁ := run (SvcState.init α) tr₁ with hs₁
  have hcond : (s₁.isConnected && s₁.wsExists) = true := by
    simp [hconn, hws]
  have hsplit : run (SvcState.init α) (tr₁ ++ Ev.issue :: tr₂) = run (step s₁ Ev.issue) tr₂ := by
    rw [run_append, ← hs₁, run_cons]
  have hstep : step s₁ Ev.issue
      = { s₁ with messageId := s₁.messageId + 1
                  pending := s₁.pending ++ [mkReqId (s₁.messageId + 1)] } :=
    step_issue_pos hcond
  have hm : (step s₁ Ev.issue).messageId = s₁.messageId + 1 := by rw [hstep]
  have hinvF : SvcInv (run (step s₁ Ev.issue) tr₂) := by
    have h := svcInv_reachable (α := α) (tr₁ ++ Ev.issue :: tr₂)
    rwa [hsplit] at h
  rw [hsplit]
  have hb : Ev.timerFire (mkReqId (s₁.messageId + 1)) ∈ tr₂ →
      mkReqId (s₁.messageId + 1) ∉ (run (step s₁ Ev.issue) tr₂).pending := by
    intro ht
    obtain ⟨u, v, huv⟩ := List.append_of_mem ht
    subst huv
    rw [run_append, run_cons]
    have hinv₃ : SvcInv (run (step s₁ Ev.issue) u) := by
      have h := svcInv_reachable (α := α) (tr₁ ++ Ev.issue :: u)
      rwa [run_append, ← hs₁, run_cons] at h
    have hk₃ : s₁.messageId + 1 ≤ (run (step s₁ Ev.issue) u).messageId := by
      have h1 := messageId_mono_run (step s₁ Ev.issue) u
      omega
    by_cases hp : mkReqId (s₁.messageId + 1) ∈ (run (step s₁ Ev.issue) u).pending
    · have h₄p : (step (run (step s₁ Ev.issue) u) (Ev.timerFire (mkReqId (s₁.messageId + 1)))).pending
          = (run (step s₁ Ev.issue) u).pending.erase (mkReqId (s₁.messageId + 1)) := by
        rw [step_timerFire_pos hp]
      have hnp : mkReqId (s₁.messageId + 1)
          ∉ (step (run (step s₁ Ev.issue) u) (Ev.timerFire (mkReqId (s₁.messageId + 1)))).pending := by
        rw [h₄p]
        exact hinv₃.pending_nodup.not_mem_erase
      exact not_pending_run (svcInv_step hinv₃ _)
        (Nat.le_trans hk₃ (messageId_mono_step _ _)) hnp v
    · have h₄ : step (run (step s₁ Ev.issue) u) (Ev.timerFire (mkReqId (s₁.messageId + 1)))
          = run (step s₁ Ev.issue) u :=
        step_timerFire_neg hp
      rw [h₄]
      exact not_pending_run hinv₃ hk₃ hp v
  refine ⟨hinvF.settled_once _, hb, ?_⟩
  intro ht hnd
  have hle := hinvF.settled_once (mkReqId (s₁.messageId + 1))
  have hmem₂ : mkReqId (s₁.messageId + 1) ∈ (step s₁ Ev.issue).pending := by
    rw [hstep]
    exact List.mem_append.mpr (Or.inr (List.mem_singleton.mpr rfl))
  have hdisj := pending_or_settled_run hmem₂ tr₂ hnd
  rcases hdisj with hp | hs
  · exact absurd hp (hb ht)
  · rw [keyCount_eq]
    omega

/-- C1, witness for the amended theorem: issue one request on an open
connection, let its deadline timer run with no `disconnect()`; it is
settled exactly once and the table no longer holds it. -/
theorem c1_amended_witness :
    keyCount (run (SvcState.init Nat)
        ([Ev.initCall, Ev.wsOpen] ++ Ev.issue :: [Ev.timerFire (mkReqId 1)])) (mkReqId 1) = 1
    ∧ mkReqId 1 ∉ (run (SvcState.init Nat)
        ([Ev.initCall, Ev.wsOpen] ++ Ev.issue :: [Ev.timerFire (mkReqId 1)])).pending := by
  have h := c1_amended_exactly_one_settlement (α := Nat)
    [Ev.initCall, Ev.wsOpen] [Ev.timerFire (mkReqId 1)] (mkReqId 1)
    (run (SvcState.init Nat) ([Ev.initCall, Ev.wsOpen] ++ Ev.issue :: [Ev.timerFire (mkReqId 1)]))
    rfl rfl rfl rfl
  exact ⟨h.2.2 (by decide) (by decide), h.2.1 (by decide)⟩

/-- C2, counterexample.  The claim says that on a transport `close` event
or a `disconnect()` call every outstanding request is immediately rejected
with `ConnectionLost`.  In the code the `close` handler only clears
`isConnected` and schedules a reconnect — the pending entry survives and
nothing is rejected — and `disconnect()` clears the table without firing
any continuation.  (No `ConnectionLost` rejection exists anywhere in the
source.) -/
theorem c2_counterexample :
    (step (run (SvcState.init Nat) [Ev.initCall, Ev.wsOpen, Ev.issue]) Ev.wsClose).pending
      = [mkReqId 1]
    ∧ (step (run (SvcState.init Nat) [Ev.initCall, Ev.wsOpen, Ev.issue]) Ev.wsClose).settled
      = []
    ∧ (step (run (SvcState.init Nat) [Ev.initCall, Ev.wsOpen, Ev.issue]) Ev.disconnectCall).settled
      = [] := by
  exact ⟨rfl, rfl, rfl⟩

/-- C2, amended.  On a transport `close` event the pending table and the
settlement log are untouched (outstanding callers are left to their own
30 s timers); on `disconnect()` the table is cleared without firing any
continuation (the settlement log is unchanged).  Neither path rejects
anything, with `ConnectionLost` or otherwise. -/
theorem c2_amended_no_rejection_on_close {α : Type} (s : SvcState α) :
    (step s Ev.wsClose).pending = s.pending ∧
    (step s Ev.wsClose).settled = s.settled ∧
    (step s Ev.wsClose).isConnected = false ∧
    (step s Ev.disconnectCall).pending = [] ∧
    (step s Ev.disconnectCall).settled = s.settled ∧
    (step s Ev.disconnectCall).isConnected = false ∧
    (step s Ev.disconnectCall).authToken = none := by
  exact ⟨rfl, rfl, rfl, rfl, rfl, rfl, rfl⟩

/-- C3, counterexample.  The claim says every tool-call that receives no
matching response within its timeout is rejected with `RequestTimeout`.
If `disconnect()` runs before the deadline, the entry is cleared from the
table, the timer finds nothing, and the caller never receives any
rejection: the settlement count of the issued id is 0 after the deadline. -/
theorem c3_counterexample :
    keyCount (run (SvcState.init Nat)
        [Ev.initCall, Ev.wsOpen, Ev.issue, Ev.disconnectCall, Ev.timerFire (mkReqId 1)])
      (mkReqId 1) = 0 := by
  exact rfl

/-- C3, amended.  For every tool-call whose entry is still pending at the
deadline — i.e. no response bearing its id arrived, its timer has not yet
run, and no `disconnect()` intervened — the timer removes the entry and
rejects the continuation with `Request timeout`, and this holds regardless
of the connection flag (the interval `u` may contain `close`/`open`
events); the timeout constant is 30 000 ms; a response bearing that id
arriving after the timer is a no-op on the whole state. -/
theorem c3_amended_timeout_rejects {α : Type} (tr₁ u : List (Ev α))
    (id : String) (A : SvcState α) (error : Option (Option String)) (r : α)
    (hconn : (run (SvcState.init α) tr₁).isConnected = true)
    (hws : (run (SvcState.init α) tr₁).wsExists = true)
    (hid : id = mkReqId ((run (SvcState.init α) tr₁).messageId + 1))
    (hA : A = run (SvcState.init α) (tr₁ ++ Ev.issue :: u))
    (hq : ∀ e ∈ u, evSettlesId id e = false)
    (hnd : Ev.disconnectCall ∉ u) :
    (step A (Ev.timerFire id)).pending = A.pending.erase id ∧
    id ∉ (step A (Ev.timerFire id)).pending ∧
    (step A (Ev.timerFire id)).settled
      = A.settled ++ [(id, Settlement.rejected McpErr.requestTimeout)] ∧
    keyCount (step A (Ev.timerFire id)) id = 1 ∧
    step (step A (Ev.timerFire id)) (Ev.recvResponse id error r) = step A (Ev.timerFire id) ∧
    requestTimeoutMs = 30000 := by
  subst hid hA
  set s₁ := run (SvcState.init α) tr₁ with hs₁
  have hcond : (s₁.isConnected && s₁.wsExists) = true := by
    simp [hconn, hws]
  have hsplit : run (SvcState.init α) (tr₁ ++ Ev.issue :: u) = run (step s₁ Ev.issue) u := by
    rw [run_append, ← hs₁, run_cons]
  have hstep : step s₁ Ev.issue
      = { s₁ with messageId := s₁.messageId + 1
                  pending := s₁.pending ++ [mkReqId (s₁.messageId + 1)] } :=
    step_issue_pos hcond
  have hmem₂ : mkReqId (s₁.messageId + 1) ∈ (step s₁ Ev.issue).pending := by
    rw [hstep]
    exact List.mem_append.mpr (Or.inr (List.mem_singleton.mpr rfl))
  have hinvA : SvcInv (run (SvcState.init α) (tr₁ ++ Ev.issue :: u)) := svcInv_reachable _
  have hmemA : mkReqId (s₁.messageId + 1)
      ∈ (run (SvcState.init α) (tr₁ ++ Ev.issue :: u)).pending := by
    rw [hsplit]
    exact pending_preserved_run hmem₂ u hq hnd
  have hfresh₁ : keysCount s₁.settled (mkReqId (s₁.messageId + 1)) = 0 :=
    (svcInv_fresh (by rw [hs₁]; exact svcInv_reachable tr₁)).2
  have hsettled₂ : (step s₁ Ev.issue).settled = s₁.settled := by rw [hstep]
  have hcountA : keysCount (run (SvcState.init α) (tr₁ ++ Ev.issue :: u)).settled
      (mkReqId (s₁.messageId + 1)) = 0 := by
    rw [hsplit, keysCount_frozen_run _ _ u hq, hsettled₂]
    exact hfresh₁
  have hpend : (step (run (SvcState.init α) (tr₁ ++ Ev.issue :: u))
      (Ev.timerFire (mkReqId (s₁.messageId + 1)))).pending
      = (run (SvcState.init α) (tr₁ ++ Ev.issue :: u)).pending.erase (mkReqId (s₁.messageId + 1)) := by
    rw [step_timerFire_pos hmemA]
  have hset : (step (run (SvcState.init α) (tr₁ ++ Ev.issue :: u))
      (Ev.timerFire (mkReqId (s₁.messageId + 1)))).settled
      = (run (SvcState.init α) (tr₁ ++ Ev.issue :: u)).settled
        ++ [(mkReqId (s₁.messageId + 1), Settlement.rejected McpErr.requestTimeout)] := by
    rw [step_timerFire_pos hmemA]
  have hnp : mkReqId (s₁.messageId + 1)
      ∉ (step (run (SvcState.init α) (tr₁ ++ Ev.issue :: u))
          (Ev.timerFire (mkReqId (s₁.messageId + 1)))).pending := by
    rw [hpend]
    exact hinvA.pending_nodup.not_mem_erase
  refine ⟨hpend, hnp, hset, ?_, ?_, rfl⟩
  · rw [keyCount_eq, hset, keysCount_append, hcountA, keysCount_single, if_pos rfl]
  · exact step_recvResponse_neg error r hnp

/-- C3, witness for the amended theorem: one request issued on an open
connection, the transport then closes (connection flag drops) and the
timer fires: the entry is removed and rejected with `Request timeout`,
and a late response for it is ignored. -/
theorem c3_amended_witness :
    (step (run (SvcState.init Nat) ([Ev.initCall, Ev.wsOpen] ++ Ev.issue :: [Ev.wsClose]))
        (Ev.timerFire (mkReqId 1))).settled
      = [(mkReqId 1, Settlement.rejected McpErr.requestTimeout)]
    ∧ keyCount (step (run (SvcState.init Nat)
        ([Ev.initCall, Ev.wsOpen] ++ Ev.issue :: [Ev.wsClose]))
        (Ev.timerFire (mkReqId 1))) (mkReqId 1) = 1
    ∧ step (step (run (SvcState.init Nat) ([Ev.initCall, Ev.wsOpen] ++ Ev.issue :: [Ev.wsClose]))
          (Ev.timerFire (mkReqId 1))) (Ev.recvResponse (mkReqId 1) (some (some "late")) 7)
        = step (run (SvcState.init Nat) ([Ev.initCall, Ev.wsOpen] ++ Ev.issue :: [Ev.wsClose]))
          (Ev.timerFire (mkReqId 1)) := by
  have h := c3_amended_timeout_rejects (α := Nat) [Ev.initCall, Ev.wsOpen] [Ev.wsClose]
    (mkReqId 1)
    (run (SvcState.init Nat) ([Ev.initCall, Ev.wsOpen] ++ Ev.issue :: [Ev.wsClose]))
    (some (some "late")) 7 rfl rfl rfl rfl (by decide) (by decide)
  exact ⟨h.2.2.1, h.2.2.2.1, h.2.2.2.2.1⟩

/-- C4, confirmed.  Responses are matched strictly by id: for any state
with three distinct pending ids, delivering their responses in reverse
order settles each continuation with exactly the payload carried by the
response bearing its own id (resolved with its result, or rejected with
its own payload error), never another caller's. -/
theorem c4_responses_matched_by_id {α : Type} (s : SvcState α) (a b c : String)
    (ea eb ec : Option (Option String)) (ra rb rc : α)
    (hab : a ≠ b) (hac : a ≠ c) (hbc : b ≠ c)
    (ha : a ∈ s.pending) (hb : b ∈ s.pending) (hc : c ∈ s.pending) :
    (run s [Ev.recvResponse c ec rc, Ev.recvResponse b eb rb, Ev.recvResponse a ea ra]).settled
      = s.settled ++ [(c, settleOf ec rc), (b, settleOf eb rb), (a, settleOf ea ra)] := by
  have hb' : b ∈ (s.pending.erase c) := (List.mem_erase_of_ne hbc).mpr hb
  have ha' : a ∈ (s.pending.erase c) := (List.mem_erase_of_ne hac).mpr ha
  have ha'' : a ∈ ((s.pending.erase c).erase b) := (List.mem_erase_of_ne hab).mpr ha'
  rw [run_cons, run_cons, run_cons, run_nil]
  simp only [step, if_pos hc]
  simp only [step, if_pos hb']
  simp only [step, if_pos ha'']
  simp [List.append_assoc]

/-- C4, witness: three requests issued concurrently; responses delivered
in reverse order (3, 2, 1), the second carrying a payload error; each
caller receives exactly its own outcome. -/
theorem c4_witness :
    (run (run (SvcState.init Nat) [Ev.initCall, Ev.wsOpen, Ev.issue, Ev.issue, Ev.issue])
        [Ev.recvResponse (mkReqId 3) none 33,
         Ev.recvResponse (mkReqId 2) (some (some "insufficient balance")) 0,
         Ev.recvResponse (mkReqId 1) none 11]).settled
      = [(mkReqId 3, Settlement.resolved 33),
         (mkReqId 2, Settlement.rejected (McpErr.mcpError "insufficient balance")),
         (mkReqId 1, Settlement.resolved 11)] := by
  have h := c4_responses_matched_by_id
    (run (SvcState.init Nat) [Ev.initCall, Ev.wsOpen, Ev.issue, Ev.issue, Ev.issue])
    (mkReqId 1) (mkReqId 2) (mkReqId 3)
    none (some (some "insufficient balance")) none 11 0 33
    (by decide) (by decide) (by decide) (by decide) (by decide) (by decide)
  exact h

/-- C9, confirmed.  A parsed response whose id is not in the pending table,
a malformed (unparseable) message, a notification, and a message of any
other type are all no-ops on the entire service state: nothing is thrown
(the step function is total) and the pending table is exactly unchanged. -/
theorem c9_unmatched_and_malformed_are_noops {α : Type} (s : SvcState α) (id : String)
    (error : Option (Option String)) (r : α) (h : id ∉ s.pending) :
    step s (Ev.recvResponse id error r) = s ∧
    step s Ev.recvMalformed = s ∧
    step s Ev.recvNotification = s ∧
    step s Ev.recvOther = s := by
  refine ⟨?_, rfl, rfl, rfl⟩
  simp [step, h]

/-- C9, witness: with one pending request `req_1`, a response for the
untracked id `req_2` (and malformed/notification messages) leave the state
exactly as it was. -/
theorem c9_witness :
    step (run (SvcState.init Nat) [Ev.initCall, Ev.wsOpen, Ev.issue])
        (Ev.recvResponse (mkReqId 2) none 5)
      = run (SvcState.init Nat) [Ev.initCall, Ev.wsOpen, Ev.issue]
    ∧ step (run (SvcState.init Nat) [Ev.initCall, Ev.wsOpen, Ev.issue]) Ev.recvMalformed
      = run (SvcState.init Nat) [Ev.initCall, Ev.wsOpen, Ev.issue]
    ∧ step (run (SvcState.init Nat) [Ev.initCall, Ev.wsOpen, Ev.issue]) Ev.recvNotification
      = run (SvcState.init Nat) [Ev.initCall, Ev.wsOpen, Ev.issue]
    ∧ step (run (SvcState.init Nat) [Ev.initCall, Ev.wsOpen, Ev.issue]) Ev.recvOther
      = run (SvcState.init Nat) [Ev.initCall, Ev.wsOpen, Ev.issue] :=
  c9_unmatched_and_malformed_are_noops
    (run (SvcState.init Nat) [Ev.initCall, Ev.wsOpen, Ev.issue])
    (mkReqId 2) none 5 (by decide)

/-! ## `FiMcpClient` (src/unnamed/part_001)

The MCP SDK client.  `verifyPasscode` authenticates by calling the
`fetch_net_worth` tool and inspecting the shape of the returned payload;
`fetchAllFinancialData` aggregates five category fetches with
`Promise.allSettled`; `authenticateWithPhone` and `getConnectionStatus`
maintain the local authentication state. -/

/-- JavaScript truthiness of an optional string field: absent (`none`) and
the empty string are falsy. -/
def truthyStr (o : Option String) : Bool :=
  match o with
  | none => false
  | some s => s != ""

/-- JavaScript `x || d` for an optional string `x`: the default is used
when `x` is absent or falsy (empty). -/
def strOr (o : Option String) (d : String) : String :=
  match o with
  | none => d
  | some s => if s == "" then d else s

/-- The fields of the JSON payload that `verifyPasscode` inspects after
`JSON.parse(resultText)` succeeds: whether the value is truthy, whether
`typeof data === 'object'`, and the `status`, `error` and `login_url`
fields (absent/falsy encoded through `Option`/`truthyStr`). -/
structure JsonPayload where
  /-- The parsed value `data` is truthy. -/
  truthy : Bool
  /-- `typeof data === 'object'`. -/
  isObject : Bool
  /-- `data.status`, when present. -/
  status : Option String
  /-- `data.error`, when present (the string used as the failure
  message). -/
  error : Option String
  /-- `data.login_url`, when present. -/
  login_url : Option String
deriving DecidableEq

/-- Status tag of the object `verifyPasscode` returns.  The source return
type is `'authenticated' | 'failed'` — it has no distinct login-required
status; a login redirect is signalled only through the `loginUrl` field
of a `failed` result. -/
inductive VerifyStatus where
  | authenticated : VerifyStatus
  | failed : VerifyStatus
deriving DecidableEq

/-- The object `verifyPasscode` resolves with. -/
structure VerifyResult where
  status : VerifyStatus
  message : String
  token : Option String
  data : Option JsonPayload
  loginUrl : Option String
deriving DecidableEq

/-- The branch of `verifyPasscode` that runs when `JSON.parse` succeeded
on the tool response text, translated condition for condition from the
source; `none` means no branch returned and control falls through to the
generic `Unable to verify passcode` return. -/
def processParsedData (data : JsonPayload) (passcode : String) : Option VerifyResult :=
  -- `if (data && data.status === 'login_required' && data.login_url)`
  if data.truthy && (data.status == some "login_required") && truthyStr data.login_url then
    some { status := .failed
           message := "Login required. Please visit the login URL first."
           token := none, data := none, loginUrl := data.login_url }
  -- `if (data && typeof data === 'object' && !data.error &&
  --      data.status !== 'login_required')`
  else if data.truthy && data.isObject && !truthyStr data.error
      && !(data.status == some "login_required") then
    some { status := .authenticated
           message := "Successfully authenticated with Fi MCP!"
           token := some passcode, data := some data, loginUrl := none }
  -- `else if (data && data.error)`
  else if data.truthy && truthyStr data.error then
    some { status := .failed
           message := strOr data.error "Authentication failed"
           token := none, data := none, loginUrl := none }
  else none

/-- `s.toLowerCase().includes(sub)` for a non-empty constant `sub`,
via `splitOn` (the separator occurs iff the split has more than one
part). -/
def lowerIncludes (s sub : String) : Bool :=
  (s.toLower.splitOn sub).length != 1

/-- The catch branch of `verifyPasscode` that runs when `JSON.parse`
threw: a heuristic scan of the raw text for failure words; `none` falls
through to the generic return. -/
def processUnparsed (resultText : String) : Option VerifyResult :=
  if lowerIncludes resultText "invalid" || lowerIncludes resultText "error"
      || lowerIncludes resultText "unauthorized" || lowerIncludes resultText "authentication" then
    some { status := .failed
           message := strOr (some resultText) "Invalid passcode. Please check and try again."
           token := none, data := none, loginUrl := none }
  else none

/-- Outcome of the `callTool('fetch_net_worth', …)` invocation inside
`verifyPasscode`, with the result of `JSON.parse` on the extracted text
supplied alongside (`none` when the parse throws). -/
inductive ToolCallOutcome where
  /-- The tool call (or anything before it) threw; the outer catch uses
  `error.message` when truthy. -/
  | threw (message : Option String) : ToolCallOutcome
  /-- The tool call returned; `resultText` is
  `response.content[0]?.text || ''` and `parsed` the `JSON.parse`
  outcome on it. -/
  | returned (resultText : String) (parsed : Option JsonPayload) : ToolCallOutcome
deriving DecidableEq

/-- The generic failure `verifyPasscode` falls through to. -/
def genericVerifyFailure : VerifyResult :=
  { status := .failed, message := "Unable to verify passcode. Please try again."
    token := none, data := none, loginUrl := none }

/-- `FiMcpClient.verifyPasscode`, as a function of the client readiness
check (`this.client && this.isConnected`), the passcode, and the tool
call outcome. -/
def verifyPasscodeFn (clientReady : Bool) (passcode : String)
    (outcome : ToolCallOutcome) : VerifyResult :=
  if !clientReady then
    -- `throw new Error('Fi MCP Client not connected')`, caught by the
    -- outer catch: `error.message || '…'`.
    { status := .failed, message := "Fi MCP Client not connected"
      token := none, data := none, loginUrl := none }
  else
    match outcome with
    | .threw m =>
        { status := .failed
          message := strOr m "Passcode verification failed. Please check your passcode and try again."
          token := none, data := none, loginUrl := none }
    | .returned resultText parsed =>
        match parsed with
        | some data => (processParsedData data passcode).getD genericVerifyFailure
        | none => (processUnparsed resultText).getD genericVerifyFailure

/-! ### Claim C5 -/

/-- C5, counterexample.  The claim says a payload with the login-redirect
marker yields a distinct `LoginRequired` outcome, never the generic
`Failed` outcome.  The source return type has no login-required status at
all: for the payload `{status: 'login_required', login_url: …}` the code
returns `status: 'failed'` (with the URL in the `loginUrl` field), so the
status of the outcome is the `failed` status, not a distinct one. -/
theorem c5_counterexample :
    (verifyPasscodeFn true "1234"
        (ToolCallOutcome.returned ""
          (some { truthy := true, isObject := true, status := some "login_required"
                  error := none, login_url := some "https://fi.money/auth" }))).status
      = VerifyStatus.failed := by
  exact rfl

/-- C5, amended.  For every passcode-verification call whose parsed
payload carries `status: 'login_required'` and a truthy `login_url`, the
result has the `failed` status, the fixed message
`Login required. Please visit the login URL first.`, and the `loginUrl`
field set to exactly the provided URL — so the login redirect is
distinguishable from a generic failure only by the presence of
`loginUrl`; the result is never `authenticated` and carries no token. -/
theorem c5_amended_login_redirect (passcode resultText url : String) (data : JsonPayload)
    (htr : data.truthy = true) (hst : data.status = some "login_required")
    (hurl : data.login_url = some url) (hne : url ≠ "") :
    (verifyPasscodeFn true passcode (ToolCallOutcome.returned resultText (some data))).status
      = VerifyStatus.failed ∧
    (verifyPasscodeFn true passcode (ToolCallOutcome.returned resultText (some data))).loginUrl
      = some url ∧
    (verifyPasscodeFn true passcode (ToolCallOutcome.returned resultText (some data))).message
      = "Login required. Please visit the login URL first." ∧
    (verifyPasscodeFn true passcode (ToolCallOutcome.returned resultText (some data))).status
      ≠ VerifyStatus.authenticated ∧
    (verifyPasscodeFn true passcode (ToolCallOutcome.returned resultText (some data))).token
      = none := by
  have hturl : truthyStr data.login_url = true := by
    rw [hurl]
    simp [truthyStr, hne]
  have hcond : (data.truthy && (data.status == some "login_required")
      && truthyStr data.login_url) = true := by
    rw [htr, hst, hturl]
    rfl
  have hres : verifyPasscodeFn true passcode (ToolCallOutcome.returned resultText (some data))
      = { status := .failed
          message := "Login required. Please visit the login URL first."
          token := none, data := none, loginUrl := data.login_url } := by
    simp only [verifyPasscodeFn, Bool.not_true, Bool.false_eq_true, if_false,
      processParsedData, hcond, if_pos, Option.getD_some]
  rw [hres, hurl]
  exact ⟨rfl, rfl, rfl, by simp, rfl⟩

/-- C5, witness for the amended theorem at a concrete login-redirect
payload. -/
theorem c5_amended_witness :
    (verifyPasscodeFn true "9999"
        (ToolCallOutcome.returned "ignored"
          (some { truthy := true, isObject := true, status := some "login_required"
                  error := none, login_url := some "https://fi.money/login" }))).status
      = VerifyStatus.failed ∧
    (verifyPasscodeFn true "9999"
        (ToolCallOutcome.returned "ignored"
          (some { truthy := true, isObject := true, status := some "login_required"
                  error := none, login_url := some "https://fi.money/login" }))).loginUrl
      = some "https://fi.money/login" := by
  have h := c5_amended_login_redirect "9999" "ignored" "https://fi.money/login"
    { truthy := true, isObject := true, status := some "login_required"
      error := none, login_url := some "https://fi.money/login" }
    rfl rfl rfl (by decide)
  exact ⟨h.1, h.2.1⟩

/-! ### Claim C6 -/

/-- One element of the array `Promise.allSettled` resolves with:
`{status: 'fulfilled', value}` or `{status: 'rejected', reason}`. -/
inductive SettledOutcome (ε α : Type) where
  | fulfilled (value : α) : SettledOutcome ε α
  | rejected (reason : ε) : SettledOutcome ε α
deriving DecidableEq

/-- `x.status === 'fulfilled' ? x.value : null`. -/
def settledValue {ε α : Type} (o : SettledOutcome ε α) : Option α :=
  match o with
  | .fulfilled v => some v
  | .rejected _ => none

/-- The object `fetchAllFinancialData` returns: each of the five data
categories independently populated or `null`. -/
structure AllFinancialData (α : Type) where
  netWorth : Option α
  bankTransactions : Option α
  creditReport : Option α
  portfolio : Option α
  epf : Option α
deriving DecidableEq

/-- `FiMcpClient.fetchAllFinancialData`: awaits
`Promise.allSettled([getNetWorth(), getBankTransactions(),
getCreditReport(), getPortfolioPerformance(), getEPFDetails()])` and
builds the result object field by field with
`x.status === 'fulfilled' ? x.value : null`; it never rethrows a
per-category failure. -/
def fetchAllFinancialData {ε α : Type}
    (netWorth bankTransactions creditReport portfolio epf : SettledOutcome ε α) :
    AllFinancialData α :=
  { netWorth := settledValue netWorth
    bankTransactions := settledValue bankTransactions
    creditReport := settledValue creditReport
    portfolio := settledValue portfolio
    epf := settledValue epf }

/-- C6, confirmed.  For every combination of per-category outcomes,
`fetchAllFinancialData` returns normally (it is a total function of the
settled outcomes: `allSettled` never rejects and no branch rethrows),
with each fulfilled category populated with exactly its own value and
each rejected category set to `null` — in particular with any 3 of 5
categories failing, the other 2 are still populated. -/
theorem c6_fetchAll_partial_failure_aggregation {ε α : Type}
    (netWorth bankTransactions creditReport portfolio epf : SettledOutcome ε α) :
    fetchAllFinancialData netWorth bankTransactions creditReport portfolio epf
      = { netWorth := settledValue netWorth, bankTransactions := settledValue bankTransactions
          creditReport := settledValue creditReport, portfolio := settledValue portfolio
          epf := settledValue epf } ∧
    (∀ x : SettledOutcome ε α, ∀ v : α, (settledValue x = some v ↔ x = .fulfilled v)) ∧
    (∀ x : SettledOutcome ε α, (settledValue x = none ↔ ∃ e, x = .rejected e)) := by
  refine ⟨rfl, ?_, ?_⟩
  · intro x v
    cases x with
    | fulfilled w =>
      simp only [settledValue, Option.some.injEq, SettledOutcome.fulfilled.injEq]
    | rejected e =>
      constructor
      · intro h
        exact absurd h (by simp [settledValue])
      · intro h
        exact absurd h (by simp)
  · intro x
    cases x with
    | fulfilled w =>
      constructor
      · intro h
        exact absurd h (by simp [settledValue])
      · rintro ⟨e, he⟩
        exact absurd he (by simp)
    | rejected e =>
      exact ⟨fun _ => ⟨e, rfl⟩, fun _ => rfl⟩

/-! ### Claim C10 -/

/-- Local state of `FiMcpClient`. -/
structure ClientState where
  /-- `this.client !== null`. -/
  clientExists : Bool
  /-- `this.isConnected`. -/
  isConnected : Bool
  /-- `this.authenticatedPhoneNumber`. -/
  authenticatedPhoneNumber : Option String
  /-- `this.authenticatedPasscode`. -/
  authenticatedPasscode : Option String
deriving DecidableEq

/-- The fresh client object. -/
def ClientState.initial : ClientState :=
  { clientExists := false, isConnected := false
    authenticatedPhoneNumber := none, authenticatedPasscode := none }

/-- The object `authenticateWithPhone` resolves with (it always returns
status `pending` — no network call, no passcode check). -/
structure AuthInitResult where
  status : String
  message : String
deriving DecidableEq

/-- `FiMcpClient.authenticateWithPhone`: records the phone number locally
and returns `pending`; nothing else is touched and no tool call is
issued. -/
def authenticateWithPhone (s : ClientState) (phoneNumber : String) :
    ClientState × AuthInitResult :=
  ({ s with authenticatedPhoneNumber := some phoneNumber },
   { status := "pending"
     message := "Please get your passcode from the Fi Money app: Net Worth Dashboard > Talk to AI > Get Passcode" })

/-- The object `getConnectionStatus` returns. -/
structure ConnStatus where
  connected : Bool
  authenticated : Bool
  phoneNumber : Option String
deriving DecidableEq

/-- `FiMcpClient.getConnectionStatus`: `connected: this.isConnected`,
`authenticated: !!this.authenticatedPhoneNumber`,
`phoneNumber: this.authenticatedPhoneNumber || undefined`. -/
def getConnectionStatus (s : ClientState) : ConnStatus :=
  { connected := s.isConnected
    authenticated := truthyStr s.authenticatedPhoneNumber
    phoneNumber :=
      match s.authenticatedPhoneNumber with
      | some p => if p == "" then none else some p
      | none => none }

/-- C10, confirmed.  After `authenticateWithPhone` alone — which merely
stores the (non-empty) phone number, touches no passcode and performs no
fetch, returning status `pending` — `getConnectionStatus` already reports
`authenticated = true`, from any prior state; and in general the
`authenticated` flag is computed solely as the truthiness of the stored
phone number, independent of connection state, passcode or any fetched
data. -/
theorem c10_authenticated_from_phone_alone (s : ClientState) (phone : String)
    (hne : phone ≠ "") :
    (getConnectionStatus (authenticateWithPhone s phone).1).authenticated = true ∧
    (authenticateWithPhone s phone).1.authenticatedPasscode = s.authenticatedPasscode ∧
    (authenticateWithPhone s phone).2.status = "pending" ∧
    (∀ t : ClientState,
      (getConnectionStatus t).authenticated = truthyStr t.authenticatedPhoneNumber) := by
  refine ⟨?_, rfl, rfl, fun t => rfl⟩
  simp [getConnectionStatus, authenticateWithPhone, truthyStr, hne]

/-- C10, witness: a fresh client, `authenticateWithPhone("9876543210")`,
no passcode ever supplied, no connection: `authenticated` is already
`true`. -/
theorem c10_witness :
    (getConnectionStatus (authenticateWithPhone ClientState.initial "9876543210").1).authenticated
      = true ∧
    (authenticateWithPhone ClientState.initial "9876543210").1.authenticatedPasscode
      = ClientState.initial.authenticatedPasscode ∧
    (authenticateWithPhone ClientState.initial "9876543210").2.status = "pending" ∧
    (∀ t : ClientState,
      (getConnectionStatus t).authenticated = truthyStr t.authenticatedPhoneNumber) :=
  c10_authenticated_from_phone_alone ClientState.initial "9876543210" (by decide)

/-! ## `FiMcpService` (src/Backend/dist/services/mcpService.js)

Per-user stream connections.  Each call of `connectStream` creates a
fresh connection record `{…, isActive: false, reconnectAttempts: 0, …}`
and installs handlers closing over that record; the `close` handler
schedules a reconnect — which calls `connectStream` again, creating a
fresh record — when the close code is not the normal closure code 1000
and the record's own attempt counter is below 5.  A `setInterval` of
30 000 ms pings while the connection is active and the socket open. -/

/-- The connection record a single `connectStream` invocation creates
(timestamp fields omitted; `lastPing` is carried by the monitor state
below). -/
structure StreamConn where
  /-- `connection.isActive`. -/
  isActive : Bool
  /-- `connection.reconnectAttempts`. -/
  reconnectAttempts : Nat
deriving DecidableEq

/-- `{ userId, socket: ws, isActive: false, reconnectAttempts: 0,
lastPing: new Date() }` — every `connectStream` call starts from this. -/
def newStreamConn : StreamConn :=
  { isActive := false, reconnectAttempts := 0 }

/-- The WebSocket normal-closure code the handler treats as a deliberate
close: `code !== 1000`. -/
def normalClosureCode : Nat := 1000

/-- The attempt cap in the close handler: `reconnectAttempts < 5`. -/
def maxReconnectAttempts : Nat := 5

/-- The backoff delay the close handler passes to `setTimeout`:
`Math.pow(2, connection.reconnectAttempts) * 1000`. -/
def reconnectDelayMs (attempts : Nat) : Nat :=
  2 ^ attempts * 1000

/-- The `close` handler of `connectStream`: marks the record inactive
and, when the code is not 1000 and the record's attempt counter is below
the cap, schedules a reconnect (returned as `some delay`) whose callback
increments the counter and calls `connectStream` again. -/
def onStreamClose (c : StreamConn) (code : Nat) : StreamConn × Option Nat :=
  if code ≠ normalClosureCode ∧ c.reconnectAttempts < maxReconnectAttempts then
    ({ c with isActive := false, reconnectAttempts := c.reconnectAttempts + 1 },
     some (reconnectDelayMs c.reconnectAttempts))
  else
    ({ c with isActive := false }, none)

/-- The delays scheduled across `n` successive non-deliberate closes
(close code `code ≠ 1000` each time): each scheduled reconnect runs
`connectStream`, which replaces the connection with `newStreamConn`
(attempt counter reset to 0), and the next close applies to that fresh
record.  The chain stops early only if some close schedules nothing. -/
def closeChainDelays : Nat → StreamConn → List Nat
  | 0, _ => []
  | n + 1, c =>
    match onStreamClose c 1006 with
    | (_, some d) => d :: closeChainDelays n newStreamConn
    | (_, none) => []

theorem closeChainDelays_replicate (n : Nat) :
    closeChainDelays n newStreamConn = List.replicate n 1000 := by
  induction n with
  | zero => rfl
  | succ n ih =>
    simp only [closeChainDelays, onStreamClose]
    rw [if_pos (by exact ⟨by decide, by decide⟩)]
    simp only [List.replicate]
    rw [ih]
    rfl

/-- C7, code bug.  The claim (and the code's own `reconnectAttempts < 5`
guard and `2^attempts` delay formula) intend a cap of 5 reconnection
attempts with doubling delays; but every scheduled reconnect calls
`connectStream`, which creates a fresh record with
`reconnectAttempts: 0`, so the counter a close handler reads is always 0:
six (indeed any number of) successive non-deliberate closes schedule six
reconnects — exceeding the cap — every one with the base delay
`2^0 * 1000 = 1000` ms, never doubled; and no send fail-fast state is
ever entered (no such gate exists in the file). -/
theorem c7_reconnect_cap_never_binds :
    closeChainDelays 6 newStreamConn = [1000, 1000, 1000, 1000, 1000, 1000] ∧
    maxReconnectAttempts < (closeChainDelays 6 newStreamConn).length ∧
    (∀ n : Nat, closeChainDelays n newStreamConn = List.replicate n 1000) ∧
    reconnectDelayMs 0 = 1000 ∧
    (onStreamClose newStreamConn 1006).1.reconnectAttempts = 1 ∧
    newStreamConn.reconnectAttempts = 0 := by
  refine ⟨?_, ?_, closeChainDelays_replicate, rfl, ?_, rfl⟩
  · rw [closeChainDelays_replicate]
    rfl
  · rw [closeChainDelays_replicate]
    decide
  · rw [onStreamClose, if_pos (by exact ⟨by decide, by decide⟩)]
    rfl

/-- Liveness-monitor state for one stream connection: the flags the
`setInterval` callback reads, whether the interval is still installed,
and `connection.lastPing`. -/
structure MonitorState where
  /-- `connection.isActive`. -/
  isActive : Bool
  /-- `ws.readyState === WebSocket.OPEN`. -/
  readyOpen : Bool
  /-- The `setInterval` has not been cleared. -/
  intervalAlive : Bool
  /-- `connection.lastPing` (epoch milliseconds). -/
  lastPing : Nat
deriving DecidableEq

/-- The only actions the interval callback ever performs. -/
inductive MonitorAct where
  /-- `ws.ping(); connection.lastPing = new Date()`. -/
  | ping : MonitorAct
  /-- `clearInterval(pingInterval)`. -/
  | stopInterval : MonitorAct
deriving DecidableEq

/-- The probe interval: `setInterval(…, 30000)`. -/
def pingIntervalMs : Nat := 30000

/-- One firing of the ping interval at time `now`, translated from the
source: `if (connection.isActive && ws.readyState === WebSocket.OPEN)
{ ws.ping(); connection.lastPing = new Date(); } else
{ clearInterval(pingInterval); }`.  Note the callback never compares
`lastPing` with anything, never sets `isActive` to false, never closes
the socket and never schedules a reconnect. -/
def pingTick (s : MonitorState) (now : Nat) : MonitorState × Option MonitorAct :=
  if !s.intervalAlive then (s, none)
  else if s.isActive && s.readyOpen then
    ({ s with lastPing := now }, some .ping)
  else
    ({ s with intervalAlive := false }, some .stopInterval)

/-- `ws.on('pong', …)`: refresh `lastPing`. -/
def onPong (s : MonitorState) (now : Nat) : MonitorState :=
  { s with lastPing := now }

/-- Fold the interval firings at the given times, collecting the actions
performed. -/
def runTicks : MonitorState → List Nat → MonitorState × List MonitorAct
  | s, [] => (s, [])
  | s, t :: ts =>
    match pingTick s t with
    | (s', some a) =>
      match runTicks s' ts with
      | (s'', acts) => (s'', a :: acts)
    | (s', none) =>
      match runTicks s' ts with
      | (s'', acts) => (s'', acts)

/-- C8, counterexample.  The claim says that after 3 probe intervals with
no heartbeat acknowledgment the liveness monitor forces the connection
into the closed state and schedules a reconnection with the first backoff
delay.  Running the interval three times from an active, open connection
with no pong ever received leaves `isActive = true` (nothing is closed),
and the only actions performed are the three pings themselves — the
callback has no closure or reconnect path at all (it also cannot detect
staleness: it overwrites `lastPing` on every send). -/
theorem c8_counterexample :
    (runTicks { isActive := true, readyOpen := true, intervalAlive := true, lastPing := 0 }
        [30000, 60000, 90000]).1.isActive = true ∧
    (runTicks { isActive := true, readyOpen := true, intervalAlive := true, lastPing := 0 }
        [30000, 60000, 90000]).2 = [MonitorAct.ping, MonitorAct.ping, MonitorAct.ping] := by
  exact ⟨rfl, rfl⟩

/-- C8, amended.  While the connection is active and the socket open, the
ping interval (30 000 ms) only sends pings and refreshes `lastPing`,
no matter how many consecutive probes go unacknowledged: the connection
is never forced closed, the interval stays installed, and no reconnect is
ever scheduled by the monitor (its action repertoire is only
ping / clear-interval; the clear fires only once the connection is
already inactive or the socket no longer open). -/
theorem c8_amended_monitor_never_closes (s : MonitorState) (times : List Nat)
    (hact : s.isActive = true) (hopen : s.readyOpen = true) (halive : s.intervalAlive = true) :
    (runTicks s times).1.isActive = true ∧
    (runTicks s times).1.readyOpen = true ∧
    (runTicks s times).1.intervalAlive = true ∧
    (runTicks s times).2 = times.map (fun _ => MonitorAct.ping) ∧
    pingIntervalMs = 30000 := by
  induction times generalizing s with
  | nil => exact ⟨hact, hopen, halive, rfl, rfl⟩
  | cons t ts ih =>
    have hcond : (s.isActive && s.readyOpen) = true := by
      rw [hact, hopen]
      rfl
    have htick : pingTick s t = ({ s with lastPing := t }, some MonitorAct.ping) := by
      rw [pingTick, halive]
      simp [hcond]
    have ih' := ih { s with lastPing := t } hact hopen halive
    simp only [runTicks, htick]
    rcases hrt : runTicks { s with lastPing := t } ts with ⟨s'', acts⟩
    rw [hrt] at ih'
    exact ⟨ih'.1, ih'.2.1, ih'.2.2.1, by rw [List.map_cons, ih'.2.2.2.1], rfl⟩

/-- C8, witness for the amended theorem: four unacknowledged probe
intervals; the monitor just pings four times and the connection stays
active and open. -/
theorem c8_amended_witness :
    (runTicks { isActive := true, readyOpen := true, intervalAlive := true, lastPing := 5 }
        [30000, 60000, 90000, 120000]).1.isActive = true ∧
    (runTicks { isActive := true, readyOpen := true, intervalAlive := true, lastPing := 5 }
        [30000, 60000, 90000, 120000]).1.readyOpen = true ∧
    (runTicks { isActive := true, readyOpen := true, intervalAlive := true, lastPing := 5 }
        [30000, 60000, 90000, 120000]).1.intervalAlive = true ∧
    (runTicks { isActive := true, readyOpen := true, intervalAlive := true, lastPing := 5 }
        [30000, 60000, 90000, 120000]).2
      = [30000, 60000, 90000, 120000].map (fun _ => MonitorAct.ping) ∧
    pingIntervalMs = 30000 :=
  c8_amended_monitor_never_closes
    { isActive := true, readyOpen := true, intervalAlive := true, lastPing := 5 }
    [30000, 60000, 90000, 120000] rfl rfl rfl

end Monolith
